import Mathlib

/-!
Verification of the bar-by-bar backtesting simulator (backtester.py).

The simulator is embedded shallowly: Python floats become rationals,
pandas rows become a list of bars, and every Python division that is not
protected by an explicit guard in the source is modelled through an
Option-valued division (none plays the role of a raised
ZeroDivisionError / IndexError), so that raising and degrading-to-zero
are distinguishable.  The Sharpe / volatility / Calmar / annualisation
metrics involve real-valued square roots and powers and are outside this
rational embedding; none of the verified claims mention them and the
source guards every division they perform.
-/

/-- Division as Python performs it on floats: dividing by zero raises,
modelled as none. -/
def divO (a b : ℚ) : Option ℚ :=
  if b = 0 then none else some (a / b)

/-- One OHLCV row together with the strategy signal column
(1 = buy, -1 = sell, 0 = hold). -/
structure Bar where
  timestamp : ℚ
  openPrice : ℚ
  high : ℚ
  low : ℚ
  close : ℚ
  volume : ℚ
  signal : Int
deriving DecidableEq

instance : Inhabited Bar := ⟨⟨0, 0, 0, 0, 0, 0, 0⟩⟩

/-- Row access, used only at indices the source also keeps in bounds. -/
def getBar (df : List Bar) (i : ℕ) : Bar :=
  df.getD i default

/-- Backtester configuration (constructor arguments of Backtester). -/
structure Config where
  initialCapital : ℚ
  commission : ℚ
  slippage : ℚ
  latencyBars : ℕ
  executionMode : String
deriving DecidableEq

inductive Side where
  | buy
  | sell
deriving DecidableEq

/-- Exit reason strings of the source, as an enumeration. -/
inductive Reason where
  | stopLoss
  | takeProfit
  | signalExit
  | endOfPeriod
  | exit
deriving DecidableEq

/-- The current_trade dict after _open_position. -/
structure InTrade where
  entryDate : ℚ
  entryPrice : ℚ
  quantity : ℚ
  side : Side
  commission : ℚ
deriving DecidableEq

/-- A completed trade appended to the ledger by _close_position. -/
structure ClosedTrade where
  entryDate : ℚ
  entryPrice : ℚ
  quantity : ℚ
  side : Side
  commission : ℚ
  exitDate : ℚ
  exitPrice : ℚ
  exitReason : Reason
  pnl : ℚ
  pnlPercent : ℚ
deriving DecidableEq

/-- Mutable simulator state (capital, position, entry_price, trades,
current_trade of the Backtester object). -/
structure SimState where
  capital : ℚ
  position : ℚ
  entryPrice : Option ℚ
  trades : List ClosedTrade
  currentTrade : Option InTrade
deriving DecidableEq

/-- Backtester.reset: the state at the start of a run. -/
def initState (cfg : Config) : SimState :=
  ⟨cfg.initialCapital, 0, none, [], none⟩

/-- Backtester._get_execution_index: add the latency, clamped at the last
bar. -/
def execIndex (cfg : Config) (i lastIndex : ℕ) : ℕ :=
  let e := i + cfg.latencyBars
  if lastIndex < e then lastIndex else e

/-- The reference price of the execution bar: the open under the
"next_open" mode, the close under the fallback. -/
def referencePrice (cfg : Config) (df : List Bar) (execIdx : ℕ) : ℚ :=
  if cfg.executionMode = "next_open" then (getBar df execIdx).openPrice
  else (getBar df execIdx).close

/-- Backtester._get_execution_price: reference price worsened by slippage
on the taken side. -/
def execPrice (cfg : Config) (df : List Bar) (execIdx : ℕ) (side : Side) : ℚ :=
  match side with
  | Side.buy => referencePrice cfg df execIdx * (1 + cfg.slippage)
  | Side.sell => referencePrice cfg df execIdx * (1 - cfg.slippage)

/-- Backtester._open_position. -/
def openPosition (cfg : Config) (df : List Bar) (index : ℕ) (side : Side)
    (positionSize : ℚ) (s : SimState) : SimState :=
  let lastIndex := df.length - 1
  let eIdx := execIndex cfg index lastIndex
  let eP := execPrice cfg df eIdx side
  let availableCapital := s.capital * positionSize
  let qty := if 0 < eP then availableCapital / eP else 0
  let grossCost := qty * eP
  let tradeCost := grossCost * cfg.commission
  if qty ≤ 0 ∨ availableCapital ≤ 0 then s
  else
    { capital := s.capital - (grossCost + tradeCost)
      position := qty
      entryPrice := some eP
      trades := s.trades
      currentTrade := some ⟨(getBar df eIdx).timestamp, eP, qty, side, tradeCost⟩ }

/-- Backtester._close_position.  The percentage P&L divides by the trade
entry price without a guard in the source, hence the Option result. -/
def closePosition (cfg : Config) (df : List Bar) (index : ℕ) (reason : Reason)
    (s : SimState) : Option SimState :=
  if s.position = 0 ∨ s.entryPrice = none then some s
  else
    let lastIndex := df.length - 1
    let eIdx := execIndex cfg index lastIndex
    let eP := execPrice cfg df eIdx Side.sell
    let qty := s.position
    let grossProceeds := qty * eP
    let tradeCost := grossProceeds * cfg.commission
    let ct : InTrade :=
      match s.currentTrade with
      | some t => t
      | none => ⟨(getBar df eIdx).timestamp, s.entryPrice.getD 0, qty, Side.buy, 0⟩
    match divO (eP - ct.entryPrice) ct.entryPrice with
    | none => none
    | some pnlPct =>
      some { capital := s.capital + (grossProceeds - tradeCost)
             position := 0
             entryPrice := none
             trades := s.trades ++
               [⟨ct.entryDate, ct.entryPrice, ct.quantity, ct.side,
                 ct.commission + tradeCost, (getBar df eIdx).timestamp, eP,
                 reason, (eP - ct.entryPrice) * qty, pnlPct⟩]
             currentTrade := none }

/-- The stop-loss test of the run loop. -/
def slTrigger (sl : Option ℚ) (pcp : ℚ) : Bool :=
  match sl with
  | none => false
  | some v => if pcp ≤ -|v| then true else false

/-- The take-profit test of the run loop. -/
def tpTrigger (tp : Option ℚ) (pcp : ℚ) : Bool :=
  match tp with
  | none => false
  | some v => if |v| ≤ pcp then true else false

/-- The stop-loss / take-profit phase of one loop iteration: may force a
close and then suppresses the bar signal (returns 0 in its place).  The
unrealized-return division by the entry price is unguarded in the
source. -/
def riskPhase (cfg : Config) (sl tp : Option ℚ) (df : List Bar) (i : ℕ)
    (s : SimState) : Option (SimState × Int) :=
  let bar := getBar df i
  match s.entryPrice with
  | none => some (s, bar.signal)
  | some e =>
    if s.position = 0 then some (s, bar.signal)
    else
      match divO (bar.close - e) e with
      | none => none
      | some pcp =>
        if 0 < s.position then
          if slTrigger sl pcp then
            match closePosition cfg df i Reason.stopLoss s with
            | none => none
            | some s1 => some (s1, 0)
          else if tpTrigger tp pcp then
            match closePosition cfg df i Reason.takeProfit s with
            | none => none
            | some s1 => some (s1, 0)
          else some (s, bar.signal)
        else some (s, bar.signal)

/-- The entry/exit phase of one loop iteration (signal handling). -/
def handleSignal (cfg : Config) (ps : ℚ) (df : List Bar) (i : ℕ) (sig : Int)
    (s : SimState) : Option SimState :=
  if sig = 1 then
    if s.position = 0 then some (openPosition cfg df i Side.buy ps s)
    else some s
  else if sig = -1 then
    if 0 < s.position then closePosition cfg df i Reason.signalExit s
    else some s
  else some s

/-- One per-bar row of the tracking columns written by the run loop. -/
structure Snapshot where
  positionQty : ℚ
  positionValue : ℚ
  cash : ℚ
  totalValue : ℚ
  returns : ℚ
  cumulativeReturns : ℚ
  drawdown : ℚ
  peak : ℚ
deriving DecidableEq

instance : Inhabited Snapshot := ⟨⟨0, 0, 0, 0, 0, 0, 0, 0⟩⟩

/-- The guarded per-bar return: 0 when the previous equity is 0. -/
def returnOf (totalValue prevTotal : ℚ) : ℚ :=
  if prevTotal ≠ 0 then (totalValue - prevTotal) / prevTotal else 0

/-- The guarded drawdown: 0 when the running peak is 0. -/
def drawdownOf (totalValue peak : ℚ) : ℚ :=
  if peak ≠ 0 then (totalValue - peak) / peak else 0

/-- The tracking row written at the end of one loop iteration.  The
cumulative return divides by the initial capital without a guard. -/
def mkSnapshot (cfg : Config) (bar : Bar) (s : SimState)
    (prevTotal prevPeak : ℚ) : Option Snapshot :=
  let positionValue := s.position * bar.close
  let totalValue := s.capital + positionValue
  let peak := max prevPeak totalValue
  match divO (totalValue - cfg.initialCapital) cfg.initialCapital with
  | none => none
  | some cumRet =>
    some ⟨s.position, positionValue, s.capital, totalValue,
          returnOf totalValue prevTotal, cumRet,
          drawdownOf totalValue peak, peak⟩

/-- One iteration of the run loop at bar i: risk phase, signal phase,
then the tracking row. -/
def simStep (cfg : Config) (sl tp : Option ℚ) (ps : ℚ) (df : List Bar)
    (i : ℕ) (s : SimState) (prevTotal prevPeak : ℚ) :
    Option (SimState × Snapshot) :=
  match riskPhase cfg sl tp df i s with
  | none => none
  | some (s1, sig) =>
    match handleSignal cfg ps df i sig s1 with
    | none => none
    | some s2 =>
      match mkSnapshot cfg (getBar df i) s2 prevTotal prevPeak with
      | none => none
      | some snap => some (s2, snap)

/-- The run loop over the remaining n bars starting at index i; prevTotal
and prevPeak are the total_value and peak written at the previous bar. -/
def runLoop (cfg : Config) (sl tp : Option ℚ) (ps : ℚ) (df : List Bar) :
    ℕ → ℕ → SimState → ℚ → ℚ → List Snapshot →
    Option (SimState × List Snapshot)
  | 0, _, s, _, _, acc => some (s, acc)
  | n + 1, i, s, pT, pP, acc =>
    match simStep cfg sl tp ps df i s pT pP with
    | none => none
    | some (s', snap) =>
      runLoop cfg sl tp ps df n (i + 1) s' snap.totalValue snap.peak
        (acc ++ [snap])

/-- The tracking row of bar 0, seeded from the column defaults. -/
def seedSnapshot (cfg : Config) : Snapshot :=
  ⟨0, 0, cfg.initialCapital, cfg.initialCapital, 0, 0, 0, cfg.initialCapital⟩

/-- The forced end-of-period close after the loop. -/
def finalizeClose (cfg : Config) (df : List Bar) (s : SimState) :
    Option SimState :=
  if 0 < s.position then
    closePosition cfg df (df.length - 1) Reason.endOfPeriod s
  else some s

/-- Mean of a list of rationals (np.mean on a nonempty group). -/
def listMean (l : List ℚ) : ℚ :=
  l.sum / l.length

/-- Maximum of a list, used only on nonempty groups. -/
def maxOf (l : List ℚ) : ℚ :=
  l.foldl max (l.headD 0)

/-- Minimum of a list, used only on nonempty groups. -/
def minOf (l : List ℚ) : ℚ :=
  l.foldl min (l.headD 0)

/-- The profit-factor expression of calculate_metrics, guarded by a
nonzero average loss and a positive losing-trade count. -/
def profitFactorOf (avgWin avgLoss : ℚ) (losingCount : ℕ) : ℚ :=
  if avgLoss ≠ 0 ∧ 0 < losingCount then |avgWin / avgLoss| else 0

/-- The trade-level block of calculate_metrics. -/
structure TradeStats where
  totalTrades : ℕ
  winningTrades : ℕ
  losingTrades : ℕ
  winRate : ℚ
  avgWin : ℚ
  avgLoss : ℚ
  profitFactor : ℚ
  maxWin : ℚ
  maxLoss : ℚ
deriving DecidableEq

/-- The trade-level metrics of calculate_metrics. -/
def tradeStats (trades : List ClosedTrade) : TradeStats :=
  if trades.isEmpty then ⟨0, 0, 0, 0, 0, 0, 0, 0, 0⟩
  else
    let winning := trades.filter fun t => decide (0 < t.pnl)
    let losing := trades.filter fun t => decide (t.pnl < 0)
    let total := trades.length
    let winRate := if 0 < total then ((winning.length : ℚ) / total) * 100 else 0
    let avgWin := if winning.isEmpty then 0 else listMean (winning.map (·.pnl))
    let avgLoss := if losing.isEmpty then 0 else listMean (losing.map (·.pnl))
    ⟨total, winning.length, losing.length, winRate, avgWin, avgLoss,
     profitFactorOf avgWin avgLoss losing.length,
     if winning.isEmpty then 0 else maxOf (winning.map (·.pnl)),
     if losing.isEmpty then 0 else minOf (losing.map (·.pnl))⟩

/-- The rational-valued part of the metrics mapping. -/
structure Metrics where
  initialCapital : ℚ
  finalCapital : ℚ
  totalReturn : ℚ
  trade : TradeStats
  maxDrawdown : ℚ
deriving DecidableEq

/-- Backtester.calculate_metrics: reads the last tracking row (raises on
an empty frame) and divides by the initial capital without a guard. -/
def calculateMetrics (cfg : Config) (trades : List ClosedTrade)
    (snaps : List Snapshot) : Option Metrics :=
  match snaps.getLast? with
  | none => none
  | some lastSnap =>
    match divO (lastSnap.totalValue - cfg.initialCapital) cfg.initialCapital with
    | none => none
    | some totalReturn =>
      let dds := snaps.map (·.drawdown)
      some ⟨cfg.initialCapital, lastSnap.totalValue, totalReturn,
            tradeStats trades,
            if dds.isEmpty then 0 else minOf dds * 100⟩

/-- The run result: the tracking rows, the final simulator state and the
metrics mapping. -/
structure RunResult where
  snaps : List Snapshot
  state : SimState
  metrics : Metrics
deriving DecidableEq

/-- Backtester.run: seed the tracking columns, loop from the second bar,
force the end-of-period close, compute the metrics. -/
def runBacktest (cfg : Config) (df : List Bar) (sl tp : Option ℚ)
    (ps : ℚ) : Option RunResult :=
  let s0 := initState cfg
  if df.isEmpty then
    match calculateMetrics cfg s0.trades [] with
    | none => none
    | some m => some ⟨[], s0, m⟩
  else
    match runLoop cfg sl tp ps df (df.length - 1) 1 s0 cfg.initialCapital
        cfg.initialCapital [seedSnapshot cfg] with
    | none => none
    | some (s1, snaps) =>
      match finalizeClose cfg df s1 with
      | none => none
      | some s2 =>
        match calculateMetrics cfg s2.trades snaps with
        | none => none
        | some m => some ⟨snaps, s2, m⟩

/-- The state invariant of a run: the position is never negative, an open
position always carries a strictly positive entry price, and an in-flight
trade record always carries a strictly positive entry price. -/
def SimInv (s : SimState) : Prop :=
  (s.position = 0 ∨ (0 < s.position ∧ ∃ e, s.entryPrice = some e ∧ 0 < e))
  ∧ (∀ t, s.currentTrade = some t → 0 < t.entryPrice)


/-! Concrete scenario constants used by witnesses and counterexamples. -/

/-- A frictionless configuration: capital 1000, zero commission and
slippage, one bar of latency, default price rule. -/
def cfgW : Config := ⟨1000, 0, 0, 1, "next_open"⟩

/-- A three-bar series at price 10 with a buy signal on bar 1 and no
exit signal, so the run ends with a forced end-of-period close. -/
def barsW : List Bar :=
  [⟨0, 10, 10, 10, 10, 1, 0⟩, ⟨1, 10, 10, 10, 10, 1, 1⟩,
   ⟨2, 10, 10, 10, 10, 1, 0⟩]

/-- State after the buy of the barsW scenario fills. -/
def s1W : SimState := ⟨0, 100, some 10, [], some ⟨2, 10, 100, Side.buy, 0⟩⟩

/-- Tracking row of bars 1 and 2 of the barsW scenario. -/
def snap1W : Snapshot := ⟨100, 1000, 0, 1000, 0, 0, 0, 1000⟩

/-- Final state of the barsW scenario after the end-of-period close. -/
def s2W : SimState :=
  ⟨1000, 0, none, [⟨2, 10, 100, Side.buy, 0, 2, 10, Reason.endOfPeriod, 0, 0⟩],
   none⟩

/-- Metrics of the barsW scenario. -/
def mW : Metrics := ⟨1000, 1000, 0, ⟨1, 0, 0, 0, 0, 0, 0, 0, 0⟩, 0⟩

/-- Full result of the barsW scenario. -/
def resW : RunResult := ⟨[⟨0, 0, 1000, 1000, 0, 0, 0, 1000⟩, snap1W, snap1W], s2W, mW⟩

/-- Capital 10000 with the default 0.075 percent commission, no
slippage, zero latency. -/
def cfg6 : Config := ⟨10000, 3/4000, 0, 0, "next_open"⟩

/-- A buy at price 100 with full sizing followed by a collapse of the
price to 1/100: commission pushes cash negative and the crash pushes
total equity itself negative. -/
def bars6 : List Bar :=
  [⟨0, 100, 100, 100, 100, 1, 0⟩, ⟨1, 100, 100, 100, 100, 1, 1⟩,
   ⟨2, 1/100, 1/100, 1/100, 1/100, 1, 0⟩]

/-- State after the buy of the bars6 scenario fills. -/
def s61 : SimState :=
  ⟨-15/2, 100, some 100, [], some ⟨1, 100, 100, Side.buy, 15/2⟩⟩

/-- Tracking row of bar 1 of the bars6 scenario. -/
def snap61 : Snapshot :=
  ⟨100, 10000, -15/2, 19985/2, -3/4000, -3/4000, -3/4000, 10000⟩

/-- Tracking row of bar 2 of the bars6 scenario: equity -13/2 against a
peak of 10000 puts the recorded drawdown strictly below -1. -/
def snap62 : Snapshot :=
  ⟨100, 1, -15/2, -13/2, -19998/19985, -20013/20000, -20013/20000, 10000⟩

/-- Final state of the bars6 scenario. -/
def s62 : SimState :=
  ⟨-26003/4000, 0, none,
   [⟨1, 100, 100, Side.buy, 30003/4000, 2, 1/100, Reason.endOfPeriod, -9999,
     -9999/10000⟩], none⟩

/-- Metrics of the bars6 scenario. -/
def m6 : Metrics :=
  ⟨10000, -13/2, -20013/20000, ⟨1, 0, 1, 0, 0, -9999, 0, 0, -9999⟩, -20013/200⟩

/-- Full result of the bars6 scenario. -/
def res6 : RunResult := ⟨[seedSnapshot cfg6, snap61, snap62], s62, m6⟩

/-- A signal-free series whose timestamps are not monotone (5, 3, 4). -/
def bars8 : List Bar :=
  [⟨5, 10, 10, 10, 10, 1, 0⟩, ⟨3, 10, 10, 10, 10, 1, 0⟩,
   ⟨4, 10, 10, 10, 10, 1, 0⟩]

/-- Tracking row of every bar of the bars8 scenario (no trades). -/
def snap8 : Snapshot := ⟨0, 0, 1000, 1000, 0, 0, 0, 1000⟩

/-- Metrics of the bars8 scenario. -/
def m8 : Metrics := ⟨1000, 1000, 0, ⟨0, 0, 0, 0, 0, 0, 0, 0, 0⟩, 0⟩

/-- Full result of the bars8 scenario. -/
def res8 : RunResult := ⟨[seedSnapshot cfgW, snap8, snap8], initState cfgW, m8⟩

/-- A state with an open position whose entry price is zero: not
reachable from a run, but exercisable through the close operation. -/
def s7 : SimState := ⟨100, 1, some 0, [], none⟩

/-- A one-bar series for exercising the close operation directly. -/
def df7 : List Bar := [⟨0, 10, 10, 10, 10, 1, 0⟩]

/-! ## Invariant and helper lemmas -/
lemma inv_initState (cfg : Config) : SimInv (initState cfg) := by
  refine ⟨Or.inl rfl, ?_⟩
  intro t ht
  simp [initState] at ht

lemma openPosition_inv (cfg : Config) (df : List Bar) (index : ℕ)
    (side : Side) (ps : ℚ) (s : SimState) (h : SimInv s) :
    SimInv (openPosition cfg df index side ps s) := by
  simp only [openPosition]
  split
  · rename_i hep
    split
    · exact h
    · rename_i hg
      push_neg at hg
      refine ⟨Or.inr ⟨hg.1, ⟨_, rfl, hep⟩⟩, ?_⟩
      intro t ht
      simp only [Option.some.injEq] at ht
      rw [← ht]
      exact hep
  · split
    · exact h
    · rename_i hg
      exact absurd (Or.inl le_rfl) hg

lemma closePosition_cases (cfg : Config) (df : List Bar) (index : ℕ)
    (reason : Reason) (s s' : SimState)
    (h : closePosition cfg df index reason s = some s') :
    (s' = s ∧ (s.position = 0 ∨ s.entryPrice = none))
    ∨ (s'.position = 0 ∧ s'.entryPrice = none ∧ s'.currentTrade = none) := by
  simp only [closePosition] at h
  split at h
  · rename_i hg
    left
    exact ⟨(Option.some.inj h).symm, hg⟩
  · split at h
    · exact absurd h (by simp)
    · right
      obtain rfl := Option.some.inj h
      exact ⟨rfl, rfl, rfl⟩

lemma closePosition_inv (cfg : Config) (df : List Bar) (index : ℕ)
    (reason : Reason) (s s' : SimState)
    (h : closePosition cfg df index reason s = some s') (hs : SimInv s) :
    SimInv s' := by
  rcases closePosition_cases cfg df index reason s s' h with ⟨rfl, _⟩ | ⟨h1, _, h3⟩
  · exact hs
  · refine ⟨Or.inl h1, ?_⟩
    intro t ht
    rw [h3] at ht
    exact absurd ht (by simp)

lemma closePosition_isSome (cfg : Config) (df : List Bar) (index : ℕ)
    (reason : Reason) (s : SimState) (hs : SimInv s) :
    ∃ s', closePosition cfg df index reason s = some s' := by
  simp only [closePosition]
  split
  · exact ⟨s, rfl⟩
  · rename_i hg
    push_neg at hg
    obtain ⟨hp0, hpe⟩ := hg
    rcases hs.1 with h0 | ⟨hpos, e, he, he0⟩
    · exact absurd h0 hp0
    · have hct : (match s.currentTrade with
          | some t => t
          | none => ⟨(getBar df (execIndex cfg index (df.length - 1))).timestamp,
              s.entryPrice.getD 0, s.position, Side.buy, 0⟩ : InTrade).entryPrice > 0 := by
        cases hc : s.currentTrade with
        | some t => exact hs.2 t hc
        | none =>
          simp only [he, Option.getD_some]
          exact he0
      rw [divO, if_neg (ne_of_gt hct)]
      exact ⟨_, rfl⟩

lemma mkSnapshot_isSome (cfg : Config) (bar : Bar) (s : SimState) (pT pP : ℚ)
    (h0 : cfg.initialCapital ≠ 0) :
    ∃ snap, mkSnapshot cfg bar s pT pP = some snap := by
  simp only [mkSnapshot, divO, if_neg h0]
  exact ⟨_, rfl⟩

lemma mkSnapshot_spec (cfg : Config) (bar : Bar) (s : SimState) (pT pP : ℚ)
    (snap : Snapshot) (h : mkSnapshot cfg bar s pT pP = some snap) :
    snap.positionQty = s.position ∧ snap.cash = s.capital
    ∧ snap.totalValue = s.capital + s.position * bar.close
    ∧ snap.peak = max pP (s.capital + s.position * bar.close)
    ∧ snap.drawdown = drawdownOf snap.totalValue snap.peak := by
  simp only [mkSnapshot] at h
  split at h
  · exact absurd h (by simp)
  · obtain rfl := Option.some.inj h
    exact ⟨rfl, rfl, rfl, rfl, rfl⟩

lemma riskPhase_inv (cfg : Config) (sl tp : Option ℚ) (df : List Bar) (i : ℕ)
    (s p : SimState) (sig : Int)
    (h : riskPhase cfg sl tp df i s = some (p, sig)) (hs : SimInv s) :
    SimInv p := by
  simp only [riskPhase] at h
  split at h
  · simp only [Option.some.injEq, Prod.mk.injEq] at h
    obtain ⟨rfl, rfl⟩ := h
    exact hs
  · split at h
    · simp only [Option.some.injEq, Prod.mk.injEq] at h
      obtain ⟨rfl, rfl⟩ := h
      exact hs
    · split at h
      · exact absurd h (by simp)
      · split at h
        · split at h
          · split at h
            · exact absurd h (by simp)
            · rename_i s1 hcp
              simp only [Option.some.injEq, Prod.mk.injEq] at h
              obtain ⟨rfl, rfl⟩ := h
              exact closePosition_inv _ _ _ _ _ _ hcp hs
          · split at h
            · split at h
              · exact absurd h (by simp)
              · rename_i s1 hcp
                simp only [Option.some.injEq, Prod.mk.injEq] at h
                obtain ⟨rfl, rfl⟩ := h
                exact closePosition_inv _ _ _ _ _ _ hcp hs
            · simp only [Option.some.injEq, Prod.mk.injEq] at h
              obtain ⟨rfl, rfl⟩ := h
              exact hs
        · simp only [Option.some.injEq, Prod.mk.injEq] at h
          obtain ⟨rfl, rfl⟩ := h
          exact hs

lemma riskPhase_isSome (cfg : Config) (sl tp : Option ℚ) (df : List Bar)
    (i : ℕ) (s : SimState) (hs : SimInv s) :
    ∃ out, riskPhase cfg sl tp df i s = some out := by
  simp only [riskPhase]
  split
  · exact ⟨_, rfl⟩
  · rename_i e he
    split
    · exact ⟨_, rfl⟩
    · rename_i hp0
      have hpe : 0 < s.position ∧ 0 < e := by
        rcases hs.1 with h0 | ⟨hpos, e', he', he0'⟩
        · exact absurd h0 hp0
        · rw [he] at he'
          obtain rfl := Option.some.inj he'
          exact ⟨hpos, he0'⟩
      split
      · rename_i heq
        rw [divO, if_neg (ne_of_gt hpe.2)] at heq
        exact absurd heq (by simp)
      · rename_i pcp heq
        rw [if_pos hpe.1]
        by_cases hsl : slTrigger sl pcp = true
        · rw [if_pos hsl]
          obtain ⟨s1, hcp⟩ := closePosition_isSome cfg df i Reason.stopLoss s hs
          rw [hcp]
          exact ⟨_, rfl⟩
        · rw [if_neg hsl]
          by_cases htp : tpTrigger tp pcp = true
          · rw [if_pos htp]
            obtain ⟨s1, hcp⟩ := closePosition_isSome cfg df i Reason.takeProfit s hs
            rw [hcp]
            exact ⟨_, rfl⟩
          · rw [if_neg htp]
            exact ⟨_, rfl⟩

lemma handleSignal_inv (cfg : Config) (ps : ℚ) (df : List Bar) (i : ℕ)
    (sig : Int) (s s' : SimState) (h : handleSignal cfg ps df i sig s = some s')
    (hs : SimInv s) : SimInv s' := by
  simp only [handleSignal] at h
  split at h
  · split at h
    · obtain rfl := Option.some.inj h
      exact openPosition_inv _ _ _ _ _ _ hs
    · obtain rfl := Option.some.inj h
      exact hs
  · split at h
    · split at h
      · exact closePosition_inv _ _ _ _ _ _ h hs
      · obtain rfl := Option.some.inj h
        exact hs
    · obtain rfl := Option.some.inj h
      exact hs

lemma handleSignal_isSome (cfg : Config) (ps : ℚ) (df : List Bar) (i : ℕ)
    (sig : Int) (s : SimState) (hs : SimInv s) :
    ∃ s', handleSignal cfg ps df i sig s = some s' := by
  simp only [handleSignal]
  split
  · split
    · exact ⟨_, rfl⟩
    · exact ⟨_, rfl⟩
  · split
    · split
      · exact closePosition_isSome cfg df i Reason.signalExit s hs
      · exact ⟨_, rfl⟩
    · exact ⟨_, rfl⟩

lemma simStep_inv (cfg : Config) (sl tp : Option ℚ) (ps : ℚ) (df : List Bar)
    (i : ℕ) (s : SimState) (pT pP : ℚ) (s' : SimState) (snap : Snapshot)
    (h : simStep cfg sl tp ps df i s pT pP = some (s', snap)) (hs : SimInv s) :
    SimInv s' := by
  simp only [simStep] at h
  split at h
  · exact absurd h (by simp)
  · rename_i s1 sig hrp
    split at h
    · exact absurd h (by simp)
    · rename_i s2 hhs
      split at h
      · exact absurd h (by simp)
      · rename_i snap0 hmk
        simp only [Option.some.injEq, Prod.mk.injEq] at h
        obtain ⟨rfl, rfl⟩ := h
        exact handleSignal_inv _ _ _ _ _ _ _ hhs (riskPhase_inv _ _ _ _ _ _ _ _ hrp hs)

lemma simStep_isSome (cfg : Config) (sl tp : Option ℚ) (ps : ℚ) (df : List Bar)
    (i : ℕ) (s : SimState) (pT pP : ℚ) (hs : SimInv s)
    (h0 : cfg.initialCapital ≠ 0) :
    ∃ out, simStep cfg sl tp ps df i s pT pP = some out := by
  obtain ⟨⟨s1, sig⟩, hrp⟩ := riskPhase_isSome cfg sl tp df i s hs
  obtain ⟨s2, hhs⟩ := handleSignal_isSome cfg ps df i sig s1
    (riskPhase_inv _ _ _ _ _ _ _ _ hrp hs)
  obtain ⟨snap, hmk⟩ := mkSnapshot_isSome cfg (getBar df i) s2 pT pP h0
  refine ⟨(s2, snap), ?_⟩
  simp only [simStep, hrp, hhs, hmk]

lemma simStep_snapshot (cfg : Config) (sl tp : Option ℚ) (ps : ℚ)
    (df : List Bar) (i : ℕ) (s : SimState) (pT pP : ℚ) (s' : SimState)
    (snap : Snapshot) (h : simStep cfg sl tp ps df i s pT pP = some (s', snap)) :
    snap.totalValue = snap.cash + snap.positionQty * (getBar df i).close
    ∧ snap.peak = max pP snap.totalValue
    ∧ snap.drawdown = drawdownOf snap.totalValue snap.peak := by
  simp only [simStep] at h
  split at h
  · exact absurd h (by simp)
  · split at h
    · exact absurd h (by simp)
    · rename_i s2 hhs
      split at h
      · exact absurd h (by simp)
      · rename_i snap0 hmk
        simp only [Option.some.injEq, Prod.mk.injEq] at h
        obtain ⟨rfl, rfl⟩ := h
        obtain ⟨h1, h2, h3, h4, h5⟩ := mkSnapshot_spec _ _ _ _ _ _ hmk
        refine ⟨?_, ?_, h5⟩
        · rw [h3, h2, h1]
        · rw [h4, ← h3]

lemma runLoop_inv (cfg : Config) (sl tp : Option ℚ) (ps : ℚ) (df : List Bar)
    (n : ℕ) : ∀ (i : ℕ) (s : SimState) (pT pP : ℚ) (acc : List Snapshot)
    (s' : SimState) (snaps : List Snapshot),
    runLoop cfg sl tp ps df n i s pT pP acc = some (s', snaps) →
    SimInv s → SimInv s' := by
  induction n with
  | zero =>
    intro i s pT pP acc s' snaps h hs
    simp only [runLoop, Option.some.injEq, Prod.mk.injEq] at h
    obtain ⟨rfl, rfl⟩ := h
    exact hs
  | succ n ih =>
    intro i s pT pP acc s' snaps h hs
    simp only [runLoop] at h
    split at h
    · exact absurd h (by simp)
    · rename_i s1 snap hstep
      exact ih _ _ _ _ _ _ _ h (simStep_inv _ _ _ _ _ _ _ _ _ _ _ hstep hs)

lemma runLoop_isSome (cfg : Config) (sl tp : Option ℚ) (ps : ℚ)
    (df : List Bar) (h0 : cfg.initialCapital ≠ 0) (n : ℕ) :
    ∀ (i : ℕ) (s : SimState) (pT pP : ℚ) (acc : List Snapshot), SimInv s →
    ∃ out, runLoop cfg sl tp ps df n i s pT pP acc = some out := by
  induction n with
  | zero =>
    intro i s pT pP acc hs
    exact ⟨_, rfl⟩
  | succ n ih =>
    intro i s pT pP acc hs
    obtain ⟨⟨s1, snap⟩, hstep⟩ := simStep_isSome cfg sl tp ps df i s pT pP hs h0
    obtain ⟨out, hout⟩ := ih (i + 1) s1 snap.totalValue snap.peak (acc ++ [snap])
      (simStep_inv _ _ _ _ _ _ _ _ _ _ _ hstep hs)
    refine ⟨out, ?_⟩
    simp only [runLoop, hstep]
    exact hout

lemma runLoop_pointwise (cfg : Config) (sl tp : Option ℚ) (ps : ℚ)
    (df : List Bar) (P : ℕ → Snapshot → Prop) (Q : ℚ → Prop)
    (hstep : ∀ i s pT pP s' snap,
      simStep cfg sl tp ps df i s pT pP = some (s', snap) → Q pP →
      P i snap ∧ Q snap.peak) (n : ℕ) :
    ∀ (i : ℕ) (s : SimState) (pT pP : ℚ) (acc : List Snapshot)
      (s' : SimState) (snaps : List Snapshot),
    runLoop cfg sl tp ps df n i s pT pP acc = some (s', snaps) →
    Q pP → acc.length = i →
    (∀ t, t < acc.length → P t (acc.getD t default)) →
    (∀ t, t < snaps.length → P t (snaps.getD t default)) := by
  induction n with
  | zero =>
    intro i s pT pP acc s' snaps h hQ hlen hacc
    simp only [runLoop, Option.some.injEq, Prod.mk.injEq] at h
    obtain ⟨rfl, rfl⟩ := h
    exact hacc
  | succ n ih =>
    intro i s pT pP acc s' snaps h hQ hlen hacc
    simp only [runLoop] at h
    split at h
    · exact absurd h (by simp)
    · rename_i s1 snap hstep1
      obtain ⟨hP, hQ'⟩ := hstep i s pT pP s1 snap hstep1 hQ
      refine ih (i + 1) s1 snap.totalValue snap.peak (acc ++ [snap]) s' snaps h
        hQ' ?_ ?_
      · simp [hlen]
      · intro t ht
        rw [List.length_append, List.length_singleton] at ht
        by_cases htl : t < acc.length
        · rw [List.getD_append _ _ _ _ htl]
          exact hacc t htl
        · have hteq : t = acc.length := by omega
          subst hteq
          rw [List.getD_append_right _ _ _ _ (le_refl _), Nat.sub_self]
          simpa [hlen] using hP

lemma runLoop_chain (cfg : Config) (sl tp : Option ℚ) (ps : ℚ)
    (df : List Bar) (n : ℕ) :
    ∀ (i : ℕ) (s : SimState) (pT pP : ℚ) (acc : List Snapshot)
      (s' : SimState) (snaps : List Snapshot),
    runLoop cfg sl tp ps df n i s pT pP acc = some (s', snaps) →
    List.Chain' (fun a b : Snapshot => a.peak ≤ b.peak) acc →
    (∀ a, acc.getLast? = some a → a.peak = pP) →
    List.Chain' (fun a b : Snapshot => a.peak ≤ b.peak) snaps := by
  induction n with
  | zero =>
    intro i s pT pP acc s' snaps h hchain hlast
    simp only [runLoop, Option.some.injEq, Prod.mk.injEq] at h
    obtain ⟨rfl, rfl⟩ := h
    exact hchain
  | succ n ih =>
    intro i s pT pP acc s' snaps h hchain hlast
    simp only [runLoop] at h
    split at h
    · exact absurd h (by simp)
    · rename_i s1 snap hstep
      obtain ⟨_, hpk, _⟩ := simStep_snapshot _ _ _ _ _ _ _ _ _ _ _ hstep
      refine ih (i + 1) s1 snap.totalValue snap.peak (acc ++ [snap]) s' snaps h
        ?_ ?_
      · rw [List.chain'_append]
        refine ⟨hchain, List.chain'_singleton _, ?_⟩
        intro x hx y hy
        simp only [List.head?_cons, Option.mem_def, Option.some.injEq] at hy
        subst hy
        rw [hlast x (Option.mem_def.mp hx), hpk]
        exact le_max_left _ _
      · intro a ha
        rw [List.getLast?_concat] at ha
        obtain rfl := Option.some.inj ha
        rfl

lemma runLoop_prefix (cfg : Config) (sl tp : Option ℚ) (ps : ℚ)
    (df : List Bar) (n : ℕ) :
    ∀ (i : ℕ) (s : SimState) (pT pP : ℚ) (acc : List Snapshot)
      (s' : SimState) (snaps : List Snapshot),
    runLoop cfg sl tp ps df n i s pT pP acc = some (s', snaps) →
    acc <+: snaps := by
  induction n with
  | zero =>
    intro i s pT pP acc s' snaps h
    simp only [runLoop, Option.some.injEq, Prod.mk.injEq] at h
    obtain ⟨rfl, rfl⟩ := h
    exact List.prefix_refl _
  | succ n ih =>
    intro i s pT pP acc s' snaps h
    simp only [runLoop] at h
    split at h
    · exact absurd h (by simp)
    · rename_i s1 snap hstep
      exact (List.prefix_append acc [snap]).trans (ih _ _ _ _ _ _ _ h)

lemma runBacktest_elim (cfg : Config) (df : List Bar) (sl tp : Option ℚ)
    (ps : ℚ) (r : RunResult) (h : runBacktest cfg df sl tp ps = some r) :
    ¬df.isEmpty = true ∧ ∃ s1 snaps s2 m,
      runLoop cfg sl tp ps df (df.length - 1) 1 (initState cfg)
        cfg.initialCapital cfg.initialCapital [seedSnapshot cfg] = some (s1, snaps)
      ∧ finalizeClose cfg df s1 = some s2
      ∧ calculateMetrics cfg s2.trades snaps = some m
      ∧ r = ⟨snaps, s2, m⟩ := by
  simp only [runBacktest] at h
  split at h
  · rename_i hemp
    split at h
    · exact absurd h (by simp)
    · rename_i m hm
      exact absurd hm (by simp [calculateMetrics])
  · rename_i hemp
    split at h
    · exact absurd h (by simp)
    · rename_i s1 snaps hloop
      split at h
      · exact absurd h (by simp)
      · rename_i s2 hfin
        split at h
        · exact absurd h (by simp)
        · rename_i m hm
          obtain rfl := Option.some.inj h
          exact ⟨hemp, s1, snaps, s2, m, hloop, hfin, hm, rfl⟩

/-- C2: in every successful run, each recorded tracking row satisfies
total equity = cash + position quantity times that bar's close, exactly;
in particular the seed row 0 records the initial capital as equity. -/
theorem C2_equity_identity (cfg : Config) (df : List Bar) (sl tp : Option ℚ)
    (ps : ℚ) (r : RunResult) (h : runBacktest cfg df sl tp ps = some r) :
    (∀ t, t < r.snaps.length →
      (r.snaps.getD t default).totalValue =
        (r.snaps.getD t default).cash +
          (r.snaps.getD t default).positionQty * (getBar df t).close)
    ∧ (r.snaps.getD 0 default).totalValue = cfg.initialCapital := by
  obtain ⟨hemp, s1, snaps, s2, m, hloop, hfin, hm, rfl⟩ :=
    runBacktest_elim _ _ _ _ _ _ h
  constructor
  · intro t ht
    refine runLoop_pointwise cfg sl tp ps df
      (fun t snap => snap.totalValue =
        snap.cash + snap.positionQty * (getBar df t).close)
      (fun _ => True) ?_ (df.length - 1) 1 (initState cfg)
      cfg.initialCapital cfg.initialCapital [seedSnapshot cfg] s1 snaps hloop
      trivial rfl ?_ t ht
    · intro i s pT pP s' snap hstep _
      exact ⟨(simStep_snapshot _ _ _ _ _ _ _ _ _ _ _ hstep).1, trivial⟩
    · intro u hu
      simp only [List.length_singleton, Nat.lt_one_iff] at hu
      subst hu
      simp [seedSnapshot]
  · obtain ⟨rest, hrest⟩ := runLoop_prefix _ _ _ _ _ _ _ _ _ _ _ _ _ hloop
    rw [← hrest, List.getD_append _ _ _ _ (by simp)]
    rfl

/-- C3: every successful run ends flat: the final state has position
quantity exactly 0, and whenever the loop leaves an open position the
post-loop step is exactly the forced close with reason end-of-period at
the last bar index. -/
theorem C3_run_ends_flat (cfg : Config) (df : List Bar) (sl tp : Option ℚ)
    (ps : ℚ) (r : RunResult) (h : runBacktest cfg df sl tp ps = some r) :
    r.state.position = 0
    ∧ (∀ s : SimState, 0 < s.position →
        finalizeClose cfg df s =
          closePosition cfg df (df.length - 1) Reason.endOfPeriod s) := by
  obtain ⟨hemp, s1, snaps, s2, m, hloop, hfin, hm, rfl⟩ :=
    runBacktest_elim _ _ _ _ _ _ h
  refine ⟨?_, ?_⟩
  · have hinv1 : SimInv s1 :=
      runLoop_inv _ _ _ _ _ _ _ _ _ _ _ _ _ hloop (inv_initState cfg)
    simp only [finalizeClose] at hfin
    split at hfin
    · rename_i hpos
      rcases closePosition_cases _ _ _ _ _ _ hfin with ⟨rfl, hno⟩ | ⟨hz, _, _⟩
      · rcases hno with h0 | hen
        · exact h0
        · rcases hinv1.1 with h0 | ⟨_, e, he, _⟩
          · exact h0
          · rw [he] at hen
            exact absurd hen (by simp)
      · exact hz
    · rename_i hpos
      obtain rfl := Option.some.inj hfin
      rcases hinv1.1 with h0 | ⟨hp, _⟩
      · exact h0
      · exact absurd hp hpos
  · intro s hs
    simp only [finalizeClose, if_pos hs]

/-- C6 (amended): in every successful run the recorded running peak is
non-decreasing, and with a nonnegative initial capital every recorded
drawdown is at most 0.  The claimed lower bound of -1 does not hold in
general (see the counterexample): equity can turn negative, pushing the
drawdown below -1. -/
theorem C6_peak_monotone_drawdown_nonpos (cfg : Config) (df : List Bar)
    (sl tp : Option ℚ) (ps : ℚ) (r : RunResult)
    (h : runBacktest cfg df sl tp ps = some r) :
    (∀ t, t + 1 < r.snaps.length →
      (r.snaps.getD t default).peak ≤ (r.snaps.getD (t + 1) default).peak)
    ∧ (0 ≤ cfg.initialCapital →
        ∀ t, t < r.snaps.length → (r.snaps.getD t default).drawdown ≤ 0) := by
  obtain ⟨hemp, s1, snaps, s2, m, hloop, hfin, hm, rfl⟩ :=
    runBacktest_elim _ _ _ _ _ _ h
  constructor
  · have hchain : List.Chain' (fun a b : Snapshot => a.peak ≤ b.peak) snaps := by
      refine runLoop_chain _ _ _ _ _ _ _ _ _ _ _ _ _ hloop
        (List.chain'_singleton _) ?_
      intro a ha
      simp only [List.getLast?_singleton, Option.some.injEq] at ha
      rw [← ha]
      rfl
    intro t ht
    have ht2 : t + 1 < snaps.length := ht
    have h1 : t < snaps.length := by omega
    show (snaps.getD t default).peak ≤ (snaps.getD (t + 1) default).peak
    rw [List.getD_eq_getElem _ _ h1, List.getD_eq_getElem _ _ ht2]
    exact List.chain'_iff_get.mp hchain t (by omega)
  · intro h0 t ht
    refine (runLoop_pointwise cfg sl tp ps df
      (fun _ snap => snap.drawdown ≤ 0 ∧ 0 ≤ snap.peak)
      (fun p => 0 ≤ p) ?_ (df.length - 1) 1 (initState cfg)
      cfg.initialCapital cfg.initialCapital [seedSnapshot cfg] s1 snaps hloop
      h0 rfl ?_ t ht).1
    · intro i s pT pP s' snap hstep hQ
      obtain ⟨_, hpk, hdd⟩ := simStep_snapshot _ _ _ _ _ _ _ _ _ _ _ hstep
      have hpknn : 0 ≤ snap.peak := by
        rw [hpk]
        exact le_trans hQ (le_max_left _ _)
      have htot : snap.totalValue ≤ snap.peak := by
        rw [hpk]
        exact le_max_right _ _
      refine ⟨⟨?_, hpknn⟩, hpknn⟩
      rw [hdd, drawdownOf]
      split
      · rw [div_nonpos_iff]
        exact Or.inr ⟨sub_nonpos.mpr htot, hpknn⟩
      · exact le_refl 0
    · intro u hu
      simp only [List.length_singleton, Nat.lt_one_iff] at hu
      subst hu
      constructor
      · simp [seedSnapshot]
      · simpa [seedSnapshot] using h0

/-- C7 (amended): the zero-previous-equity and zero-peak divisions are
explicitly guarded to the defined value 0; the zero-entry-price
divisions are not guarded (they raise, see the counterexample) but are
unreachable because an open position always carries a positive entry
price, so every run on a nonempty bar list with nonzero initial capital
completes without a numeric error. -/
theorem C7_division_boundaries (cfg : Config) (df : List Bar)
    (sl tp : Option ℚ) (ps : ℚ) (v : ℚ) :
    returnOf v 0 = 0 ∧ drawdownOf v 0 = 0
    ∧ (cfg.initialCapital ≠ 0 → df ≠ [] →
        (runBacktest cfg df sl tp ps).isSome = true) := by
  refine ⟨by simp [returnOf], by simp [drawdownOf], ?_⟩
  intro h0 hne
  obtain ⟨⟨s1, snaps⟩, hloop⟩ := runLoop_isSome cfg sl tp ps df h0
    (df.length - 1) 1 (initState cfg) cfg.initialCapital cfg.initialCapital
    [seedSnapshot cfg] (inv_initState cfg)
  have hinv1 : SimInv s1 :=
    runLoop_inv _ _ _ _ _ _ _ _ _ _ _ _ _ hloop (inv_initState cfg)
  obtain ⟨s2, hfin⟩ : ∃ s2, finalizeClose cfg df s1 = some s2 := by
    simp only [finalizeClose]
    split
    · exact closePosition_isSome _ _ _ _ _ hinv1
    · exact ⟨_, rfl⟩
  have hsne : snaps ≠ [] := by
    obtain ⟨rest, hrest⟩ := runLoop_prefix _ _ _ _ _ _ _ _ _ _ _ _ _ hloop
    intro hnil
    rw [hnil] at hrest
    simp at hrest
  obtain ⟨m, hmet⟩ : ∃ m, calculateMetrics cfg s2.trades snaps = some m := by
    simp only [calculateMetrics]
    cases hget : snaps.getLast? with
    | none => exact absurd (List.getLast?_eq_none_iff.mp hget) hsne
    | some lastSnap =>
      have hdiv : divO (lastSnap.totalValue - cfg.initialCapital)
          cfg.initialCapital = some ((lastSnap.totalValue -
            cfg.initialCapital) / cfg.initialCapital) := by
        rw [divO, if_neg h0]
      simp only [hdiv]
      exact ⟨_, rfl⟩
  have hempty : ¬df.isEmpty = true := by simpa using hne
  simp only [runBacktest, if_neg hempty, hloop, hfin, hmet]
  rfl

/-- C1: for every signal bar index, latency and last bar index the
execution index is the latency-shifted index clamped to the last bar
(so late signals execute at the last available bar), and the raw
execution price is the reference price of the execution bar (its open
under the default rule, its close under the fallback) worsened by
slippage: multiplied by 1 + slippage for a buy, 1 - slippage for a
sell. -/
theorem C1_execution_model (cfg : Config) (df : List Bar) (i L e : ℕ) :
    execIndex cfg i L = min (i + cfg.latencyBars) L
    ∧ (L ≤ i + cfg.latencyBars → execIndex cfg i L = L)
    ∧ execPrice cfg df e Side.buy = referencePrice cfg df e * (1 + cfg.slippage)
    ∧ execPrice cfg df e Side.sell = referencePrice cfg df e * (1 - cfg.slippage)
    ∧ (cfg.executionMode = "next_open" → referencePrice cfg df e = (getBar df e).openPrice)
    ∧ (cfg.executionMode ≠ "next_open" → referencePrice cfg df e = (getBar df e).close) := by
  refine ⟨?_, ?_, rfl, rfl, ?_, ?_⟩
  · simp only [execIndex]
    split <;> omega
  · intro h
    simp only [execIndex]
    split <;> omega
  · intro h
    simp [referencePrice, h]
  · intro h
    simp [referencePrice, h]

/-- C5: a buy signal while already in a position is ignored by the run
loop (the state passes through unchanged), and a close call while flat is
a no-op returning the very same state; neither raises. -/
theorem C5_invalid_transitions_noop (cfg : Config) (ps : ℚ) (df : List Bar)
    (i : ℕ) (r : Reason) (s : SimState) :
    (s.position ≠ 0 → handleSignal cfg ps df i 1 s = some s)
    ∧ (s.position = 0 → closePosition cfg df i r s = some s) := by
  constructor
  · intro h
    simp [handleSignal, h]
  · intro h
    simp [closePosition, h]

/-- C5 witness: both no-ops at a concrete Long state and a concrete flat
state. -/
theorem C5_invalid_transitions_noop_witness :
    handleSignal ⟨1000, 0, 0, 1, "next_open"⟩ 1 [] 0 1
        ⟨500, 2, some 10, [], none⟩ = some ⟨500, 2, some 10, [], none⟩
    ∧ closePosition ⟨1000, 0, 0, 1, "next_open"⟩ [] 0 Reason.exit
        ⟨500, 0, none, [], none⟩ = some ⟨500, 0, none, [], none⟩ :=
  ⟨(C5_invalid_transitions_noop ⟨1000, 0, 0, 1, "next_open"⟩ 1 [] 0 Reason.exit
      ⟨500, 2, some 10, [], none⟩).1 (by norm_num),
   (C5_invalid_transitions_noop ⟨1000, 0, 0, 1, "next_open"⟩ 1 [] 0 Reason.exit
      ⟨500, 0, none, [], none⟩).2 rfl⟩

/-- C9: the metrics aggregator is guarded at its division boundaries:
with no trades every trade statistic is zero; a zero average loss gives
profit factor 0 whatever the loss count; a nonzero average loss with at
least one losing trade gives the absolute ratio of the averages; and
with no losing trades the profit factor is 0. -/
theorem C9_metrics_guards :
    tradeStats [] = ⟨0, 0, 0, 0, 0, 0, 0, 0, 0⟩
    ∧ (∀ w : ℚ, ∀ n : ℕ, profitFactorOf w 0 n = 0)
    ∧ (∀ w l : ℚ, ∀ n : ℕ, l ≠ 0 → 0 < n → profitFactorOf w l n = |w / l|)
    ∧ (∀ trades : List ClosedTrade,
        (trades.filter fun t => decide (t.pnl < 0)).length = 0 →
          (tradeStats trades).profitFactor = 0) := by
  refine ⟨rfl, ?_, ?_, ?_⟩
  · intro w n
    simp [profitFactorOf]
  · intro w l n h1 h2
    rw [profitFactorOf, if_pos ⟨h1, h2⟩]
  · intro trades h
    by_cases he : trades.isEmpty
    · simp [tradeStats, he]
    · simp only [tradeStats, he, Bool.false_eq_true, if_false]
      simp [profitFactorOf, h]

/-- C9 witness: the guards applied at concrete values: profit factor of a
nonzero average loss, and a ledger with one winning trade only. -/
theorem C9_metrics_guards_witness :
    profitFactorOf 3 (-2) 1 = |(3 : ℚ) / (-2)|
    ∧ (tradeStats [⟨0, 10, 1, Side.buy, 0, 1, 15, Reason.exit, 5, 1/2⟩]).profitFactor = 0 :=
  ⟨C9_metrics_guards.2.2.1 3 (-2) 1 (by norm_num) (by norm_num),
   C9_metrics_guards.2.2.2 [⟨0, 10, 1, Side.buy, 0, 1, 15, Reason.exit, 5, 1/2⟩]
     (by norm_num)⟩

/-- C10: opening with full sizing, a positive commission rate, a positive
execution price and positive prior cash leaves the cash balance at
exactly the negated entry commission, which is strictly negative: the
commission is charged on top of the full allocated notional and nothing
clamps cash at zero. -/
theorem C10_entry_commission_overdraft (cfg : Config) (df : List Bar)
    (i : ℕ) (s : SimState) (hc : 0 < cfg.commission)
    (hp : 0 < execPrice cfg df (execIndex cfg i (df.length - 1)) Side.buy)
    (hK : 0 < s.capital) :
    (openPosition cfg df i Side.buy 1 s).capital = -(s.capital * cfg.commission)
    ∧ (openPosition cfg df i Side.buy 1 s).capital < 0 := by
  have hmain : (openPosition cfg df i Side.buy 1 s).capital
      = -(s.capital * cfg.commission) := by
    simp only [openPosition, mul_one, if_pos hp]
    rw [if_neg]
    · have hne : execPrice cfg df (execIndex cfg i (df.length - 1)) Side.buy ≠ 0 :=
        ne_of_gt hp
      field_simp
    · push_neg
      exact ⟨div_pos hK hp, hK⟩
  exact ⟨hmain, hmain ▸ neg_neg_iff_pos.mpr (mul_pos hK hc)⟩

/-- C10 witness: a concrete open with sizing 1 on 10000 cash, commission
1/100 and execution price 50 ends with cash exactly -100. -/
theorem C10_entry_commission_overdraft_witness :
    (openPosition ⟨10000, 1/100, 0, 0, "next_open"⟩
        [⟨0, 50, 50, 50, 50, 1, 1⟩] 0 Side.buy 1
        ⟨10000, 0, none, [], none⟩).capital = -(10000 * (1/100))
    ∧ (openPosition ⟨10000, 1/100, 0, 0, "next_open"⟩
        [⟨0, 50, 50, 50, 50, 1, 1⟩] 0 Side.buy 1
        ⟨10000, 0, none, [], none⟩).capital < 0 :=
  C10_entry_commission_overdraft ⟨10000, 1/100, 0, 0, "next_open"⟩
    [⟨0, 50, 50, 50, 50, 1, 1⟩] 0 ⟨10000, 0, none, [], none⟩
    (by norm_num)
    (by norm_num [execPrice, referencePrice, execIndex, getBar])
    (by norm_num)

/-- C1 witness: clamping at the last bar and both reference-price rules
at concrete inputs. -/
theorem C1_execution_model_witness :
    execIndex ⟨1000, 0, 0, 2, "next_open"⟩ 5 4 = 4
    ∧ referencePrice ⟨1000, 0, 0, 2, "next_open"⟩ [⟨0, 7, 8, 6, 9, 1, 0⟩] 0
        = (getBar [⟨0, 7, 8, 6, 9, 1, 0⟩] 0).openPrice
    ∧ referencePrice ⟨1000, 0, 0, 2, "close"⟩ [⟨0, 7, 8, 6, 9, 1, 0⟩] 0
        = (getBar [⟨0, 7, 8, 6, 9, 1, 0⟩] 0).close :=
  ⟨(C1_execution_model ⟨1000, 0, 0, 2, "next_open"⟩ [] 5 4 0).2.1 (by norm_num),
   (C1_execution_model ⟨1000, 0, 0, 2, "next_open"⟩ [⟨0, 7, 8, 6, 9, 1, 0⟩]
      5 4 0).2.2.2.2.1 rfl,
   (C1_execution_model ⟨1000, 0, 0, 2, "close"⟩ [⟨0, 7, 8, 6, 9, 1, 0⟩]
      5 4 0).2.2.2.2.2 (by simp)⟩

/-- C4: on a Long bar the stop-loss test runs first and the take-profit
test second, both before any signal handling: whenever one of them
fires, the whole loop iteration is exactly the forced close with the
corresponding reason followed by the snapshot, so the bar's own signal
is never consulted (it is suppressed); when both conditions hold the
stop-loss wins. -/
theorem C4_risk_checks_precede_signals (cfg : Config) (sl tp : Option ℚ)
    (ps : ℚ) (df : List Bar) (i : ℕ) (s : SimState) (pT pP : ℚ) (e : ℚ)
    (he : s.entryPrice = some e) (he0 : e ≠ 0) (hp : 0 < s.position) :
    (slTrigger sl (((getBar df i).close - e) / e) = true →
      simStep cfg sl tp ps df i s pT pP =
        (closePosition cfg df i Reason.stopLoss s).bind
          (fun s1 => (mkSnapshot cfg (getBar df i) s1 pT pP).map
            (fun snap => (s1, snap))))
    ∧ (slTrigger sl (((getBar df i).close - e) / e) = false →
        tpTrigger tp (((getBar df i).close - e) / e) = true →
        simStep cfg sl tp ps df i s pT pP =
          (closePosition cfg df i Reason.takeProfit s).bind
            (fun s1 => (mkSnapshot cfg (getBar df i) s1 pT pP).map
              (fun snap => (s1, snap)))) := by
  have hpos : ¬s.position = 0 := by
    intro h0
    rw [h0] at hp
    exact lt_irrefl 0 hp
  constructor
  · intro hsl
    simp only [simStep, riskPhase, he, hpos, if_false, divO, he0, if_neg,
      if_pos hp, hsl, if_true]
    cases hcp : closePosition cfg df i Reason.stopLoss s with
    | none => rfl
    | some s1 =>
      simp only [handleSignal, Option.bind_some]
      norm_num
      cases hmk : mkSnapshot cfg (getBar df i) s1 pT pP with
      | none => rfl
      | some snap => rfl
  · intro hsl htp
    simp only [simStep, riskPhase, he, hpos, if_false, divO, he0, if_neg,
      if_pos hp, hsl, htp, if_true, Bool.false_eq_true]
    cases hcp : closePosition cfg df i Reason.takeProfit s with
    | none => rfl
    | some s1 =>
      simp only [handleSignal, Option.bind_some]
      norm_num
      cases hmk : mkSnapshot cfg (getBar df i) s1 pT pP with
      | none => rfl
      | some snap => rfl

/-- C4 witness: a concrete Long bar whose stop-loss fires (close 8 versus
entry 10 with stop 10%) while the bar also carries a sell signal, and a
concrete Long bar whose take-profit fires with no stop-loss set. -/
theorem C4_risk_checks_precede_signals_witness :
    simStep ⟨1000, 0, 0, 1, "next_open"⟩ (some (1/10)) none 1
        [⟨0, 10, 10, 10, 10, 1, 0⟩, ⟨1, 8, 8, 8, 8, 1, -1⟩] 1
        ⟨0, 1, some 10, [], some ⟨0, 10, 1, Side.buy, 0⟩⟩ 1000 1000 =
      (closePosition ⟨1000, 0, 0, 1, "next_open"⟩
          [⟨0, 10, 10, 10, 10, 1, 0⟩, ⟨1, 8, 8, 8, 8, 1, -1⟩] 1
          Reason.stopLoss ⟨0, 1, some 10, [], some ⟨0, 10, 1, Side.buy, 0⟩⟩).bind
        (fun s1 => (mkSnapshot ⟨1000, 0, 0, 1, "next_open"⟩
            (getBar [⟨0, 10, 10, 10, 10, 1, 0⟩, ⟨1, 8, 8, 8, 8, 1, -1⟩] 1)
            s1 1000 1000).map (fun snap => (s1, snap)))
    ∧ simStep ⟨1000, 0, 0, 1, "next_open"⟩ none (some (1/20)) 1
        [⟨0, 10, 10, 10, 10, 1, 0⟩, ⟨1, 11, 11, 11, 11, 1, -1⟩] 1
        ⟨0, 1, some 10, [], some ⟨0, 10, 1, Side.buy, 0⟩⟩ 1000 1000 =
      (closePosition ⟨1000, 0, 0, 1, "next_open"⟩
          [⟨0, 10, 10, 10, 10, 1, 0⟩, ⟨1, 11, 11, 11, 11, 1, -1⟩] 1
          Reason.takeProfit ⟨0, 1, some 10, [], some ⟨0, 10, 1, Side.buy, 0⟩⟩).bind
        (fun s1 => (mkSnapshot ⟨1000, 0, 0, 1, "next_open"⟩
            (getBar [⟨0, 10, 10, 10, 10, 1, 0⟩, ⟨1, 11, 11, 11, 11, 1, -1⟩] 1)
            s1 1000 1000).map (fun snap => (s1, snap))) :=
  ⟨(C4_risk_checks_precede_signals ⟨1000, 0, 0, 1, "next_open"⟩ (some (1/10))
      none 1 [⟨0, 10, 10, 10, 10, 1, 0⟩, ⟨1, 8, 8, 8, 8, 1, -1⟩] 1
      ⟨0, 1, some 10, [], some ⟨0, 10, 1, Side.buy, 0⟩⟩ 1000 1000 10 rfl
      (by norm_num) (by norm_num)).1
    (by norm_num [slTrigger, getBar, List.getD_cons_succ, List.getD_cons_zero,
       abs_of_nonneg]),
   (C4_risk_checks_precede_signals ⟨1000, 0, 0, 1, "next_open"⟩ none
      (some (1/20)) 1 [⟨0, 10, 10, 10, 10, 1, 0⟩, ⟨1, 11, 11, 11, 11, 1, -1⟩] 1
      ⟨0, 1, some 10, [], some ⟨0, 10, 1, Side.buy, 0⟩⟩ 1000 1000 10 rfl
      (by norm_num) (by norm_num)).2 rfl
    (by norm_num [tpTrigger, getBar, List.getD_cons_succ, List.getD_cons_zero,
       abs_of_nonneg])⟩


lemma loopW : runLoop cfgW none none 1 barsW 2 1 (initState cfgW) 1000 1000
    [seedSnapshot cfgW] = some (s1W, [seedSnapshot cfgW, snap1W, snap1W]) := by
  norm_num [runLoop, simStep, riskPhase, handleSignal, openPosition,
    closePosition, mkSnapshot, execIndex, execPrice, referencePrice, getBar,
    initState, seedSnapshot, divO, slTrigger, tpTrigger, returnOf, drawdownOf,
    cfgW, barsW, snap1W, s1W]

lemma finW : finalizeClose cfgW barsW s1W = some s2W := by
  norm_num [finalizeClose, closePosition, execIndex, execPrice, referencePrice,
    getBar, divO, cfgW, barsW, s1W, s2W]
  simp

lemma metW : calculateMetrics cfgW s2W.trades [seedSnapshot cfgW, snap1W, snap1W]
    = some mW := by
  norm_num [calculateMetrics, tradeStats, listMean, maxOf, minOf,
    profitFactorOf, divO, seedSnapshot, cfgW, snap1W, s2W, mW]

lemma runW : runBacktest cfgW barsW none none 1 = some resW := by
  have hlen : barsW.length - 1 = 2 := rfl
  have hemp : barsW.isEmpty = false := rfl
  have hcap : cfgW.initialCapital = 1000 := rfl
  simp only [runBacktest, hemp, Bool.false_eq_true, if_false, hlen, hcap,
    loopW, finW, metW]
  rfl

lemma loop6 : runLoop cfg6 none none 1 bars6 2 1 (initState cfg6) 10000 10000
    [seedSnapshot cfg6] = some (s61, [seedSnapshot cfg6, snap61, snap62]) := by
  norm_num [runLoop, simStep, riskPhase, handleSignal, openPosition,
    closePosition, mkSnapshot, execIndex, execPrice, referencePrice, getBar,
    initState, seedSnapshot, divO, slTrigger, tpTrigger, returnOf, drawdownOf,
    max_def, cfg6, bars6, snap61, snap62, s61]

lemma fin6 : finalizeClose cfg6 bars6 s61 = some s62 := by
  norm_num [finalizeClose, closePosition, execIndex, execPrice, referencePrice,
    getBar, divO, cfg6, bars6, s61, s62]
  simp

lemma met6 : calculateMetrics cfg6 s62.trades [seedSnapshot cfg6, snap61, snap62]
    = some m6 := by
  norm_num [calculateMetrics, tradeStats, listMean, maxOf, minOf,
    profitFactorOf, divO, seedSnapshot, min_def, max_def, cfg6, snap61, snap62,
    s62, m6]

lemma run6 : runBacktest cfg6 bars6 none none 1 = some res6 := by
  have hlen : bars6.length - 1 = 2 := rfl
  have hemp : bars6.isEmpty = false := rfl
  have hcap : cfg6.initialCapital = 10000 := rfl
  simp only [runBacktest, hemp, Bool.false_eq_true, if_false, hlen, hcap,
    loop6, fin6, met6]
  rfl

lemma loop8 : runLoop cfgW none none 1 bars8 2 1 (initState cfgW) 1000 1000
    [seedSnapshot cfgW] = some (initState cfgW, [seedSnapshot cfgW, snap8, snap8]) := by
  norm_num [runLoop, simStep, riskPhase, handleSignal, openPosition,
    closePosition, mkSnapshot, execIndex, execPrice, referencePrice, getBar,
    initState, seedSnapshot, divO, slTrigger, tpTrigger, returnOf, drawdownOf,
    cfgW, bars8, snap8]

lemma fin8 : finalizeClose cfgW bars8 (initState cfgW) = some (initState cfgW) := by
  norm_num [finalizeClose, initState]

lemma met8 : calculateMetrics cfgW (initState cfgW).trades
    [seedSnapshot cfgW, snap8, snap8] = some m8 := by
  norm_num [calculateMetrics, tradeStats, listMean, maxOf, minOf,
    profitFactorOf, divO, seedSnapshot, initState, cfgW, snap8, m8]

lemma run8 : runBacktest cfgW bars8 none none 1 = some res8 := by
  have hlen : bars8.length - 1 = 2 := rfl
  have hemp : bars8.isEmpty = false := rfl
  have hcap : cfgW.initialCapital = 1000 := rfl
  simp only [runBacktest, hemp, Bool.false_eq_true, if_false, hlen, hcap,
    loop8, fin8, met8]
  rfl

/-- C2 witness: the equity identity applied to a concrete run at bar 1,
and the seed equity of that run. -/
theorem C2_equity_identity_witness :
    (resW.snaps.getD 1 default).totalValue =
      (resW.snaps.getD 1 default).cash +
        (resW.snaps.getD 1 default).positionQty * (getBar barsW 1).close
    ∧ (resW.snaps.getD 0 default).totalValue = cfgW.initialCapital :=
  ⟨(C2_equity_identity cfgW barsW none none 1 resW runW).1 1
      (by norm_num [resW, snap1W]),
   (C2_equity_identity cfgW barsW none none 1 resW runW).2⟩

/-- C3 witness: a concrete run that ends with an open position closes it
and finishes flat; the post-loop step on its loop-final state is the
end-of-period close at the last bar. -/
theorem C3_run_ends_flat_witness :
    resW.state.position = 0
    ∧ finalizeClose cfgW barsW s1W =
        closePosition cfgW barsW (barsW.length - 1) Reason.endOfPeriod s1W :=
  ⟨(C3_run_ends_flat cfgW barsW none none 1 resW runW).1,
   (C3_run_ends_flat cfgW barsW none none 1 resW runW).2 s1W
     (by norm_num [s1W])⟩

/-- C6 counterexample: a concrete run (full sizing, default commission,
price collapse) whose recorded drawdown at bar 2 is -20013/20000, which
is strictly below -1 — refuting drawdown ∈ (-1, 0]. -/
theorem C6_drawdown_below_minus_one :
    runBacktest cfg6 bars6 none none 1 = some res6
    ∧ (res6.snaps.getD 2 default).drawdown < -1 :=
  ⟨run6, by norm_num [res6, snap62, List.getD_cons_succ, List.getD_cons_zero]⟩

/-- C6 witness: the peak monotonicity and drawdown nonpositivity applied
to a concrete run. -/
theorem C6_peak_monotone_drawdown_nonpos_witness :
    (resW.snaps.getD 0 default).peak ≤ (resW.snaps.getD 1 default).peak
    ∧ (resW.snaps.getD 1 default).drawdown ≤ 0 :=
  ⟨(C6_peak_monotone_drawdown_nonpos cfgW barsW none none 1 resW runW).1 0
      (by norm_num [resW, snap1W]),
   (C6_peak_monotone_drawdown_nonpos cfgW barsW none none 1 resW runW).2
      (by norm_num [cfgW]) 1 (by norm_num [resW, snap1W])⟩

/-- C7 counterexample: closing a position whose entry price is zero
raises a division error (modelled none) in the percentage-P&L
computation instead of degrading to the defined value 0 — the
zero-entry-price case has no guard in the source. -/
theorem C7_zero_entry_price_raises :
    closePosition cfgW df7 0 Reason.exit s7 = none := by
  norm_num [closePosition, divO, execIndex, execPrice, referencePrice, getBar,
    cfgW, df7, s7]
  intro h
  exact absurd h (Option.some_ne_none 0)

/-- C7 witness: the guarded divisions at a concrete value and a concrete
complete run. -/
theorem C7_division_boundaries_witness :
    returnOf 5 0 = 0 ∧ drawdownOf 5 0 = 0
    ∧ (runBacktest cfgW barsW none none 1).isSome = true :=
  ⟨(C7_division_boundaries cfgW barsW none none 1 5).1,
   (C7_division_boundaries cfgW barsW none none 1 5).2.1,
   (C7_division_boundaries cfgW barsW none none 1 5).2.2 (by norm_num [cfgW])
     (by simp [barsW])⟩

/-- C8 counterexample: a bar series whose timestamps are not monotone
(5 then 3) is not rejected: the run completes normally with a full
result, so no pre-loop validation exists. -/
theorem C8_no_validation_cex :
    (getBar bars8 1).timestamp < (getBar bars8 0).timestamp
    ∧ runBacktest cfgW bars8 none none 1 = some res8 :=
  ⟨by norm_num [getBar, bars8, List.getD_cons_succ, List.getD_cons_zero],
   run8⟩

/-- C8 (amended): the simulator performs no input validation: a
non-monotonic bar series runs to completion, while an empty series is
not rejected before the loop — it fails afterwards, in the metrics
computation, when the last equity row is read. -/
theorem C8_no_prevalidation :
    (runBacktest cfgW bars8 none none 1).isSome = true
    ∧ runBacktest cfgW ([] : List Bar) none none 1 = none
    ∧ calculateMetrics cfgW [] [] = none := by
  refine ⟨?_, rfl, rfl⟩
  rw [run8]
  rfl
